import Mathlib

/-!
# Verification of the Labyrinth_game map/collision subsystem

Shallow embedding, in Lean 4, of the collision and movement code of the
Labyrinth_game repository:

* `src/components/collision.py` — `CollisionManager`
  (`identify_collidable_tiles`, `load_collision_objects`,
  `build_collision_map`, `_build_spatial_grid`, `is_tile_collidable`,
  `point_in_polygon`, `is_position_collidable`);
* `src/entities/player.py` — `Player.update`, `Player._update_collision_points`,
  `Player.check_collision`.

Python floats are modelled as rationals (`ℚ`), Python ints as `ℤ`/`ℕ`.
Python `a // b` on numbers is floor division (`⌊a / b⌋`; `Int.fdiv` on
integers), and `int(q)` truncates toward zero (`ratTrunc` below).
Dictionaries keyed by integers are modelled as insertion-ordered key lists
(`dictAdd` inserts a key only if absent, matching `d[k] = True`), and the
sparse spatial grid as a total function from cell keys to bucket lists
(an absent key behaves exactly like an empty bucket in every query).
-/

namespace Labyrinth

/-- Python `int(q)`: truncation toward zero. -/
def ratTrunc (q : ℚ) : ℤ := if 0 ≤ q then ⌊q⌋ else ⌈q⌉

/-- Python `a // b` for rationals (floor division). -/
def fdivQ (a b : ℚ) : ℤ := ⌊a / b⌋

/-- A `{name, value}` entry of a Tiled `properties` array (values are the
literal strings `"true"` / `"false"` etc.). -/
structure PropKV where
  name : String
  value : String
deriving DecidableEq, Repr

/-- One entry of a tileset's `tiles` array: a local tile id with its
per-tile property list. -/
structure TileInfo where
  id : ℕ
  properties : List PropKV
deriving DecidableEq, Repr

/-- The parts of a loaded tileset read by `identify_collidable_tiles`:
`original_data.name`, the tileset-level `properties`, `tilecount`, and the
`original_data.tiles` array. -/
structure Tileset where
  name : String
  properties : List PropKV
  tilecount : ℕ
  tiles : List TileInfo
deriving DecidableEq, Repr

/-- ASCII lower-casing of one character (the property values and layer names
this code compares are ASCII, so Python's `str.lower()` acts exactly like
this on them). -/
def lowerChar (c : Char) : Char :=
  if 'A' ≤ c && c ≤ 'Z' then Char.ofNat (c.toNat + 32) else c

/-- Python `s.lower()` (ASCII). -/
def lowerStr (s : String) : String := String.mk (s.data.map lowerChar)

/-- `needle` is a prefix of the second list (helper for Python's substring
operator `in`). -/
def chPre : List Char → List Char → Bool
  | [], _ => true
  | _ :: _, [] => false
  | a :: as, b :: bs => a == b && chPre as bs

/-- `needle` occurs as a contiguous substring (Python `needle in s`). -/
def chSub (needle : List Char) : List Char → Bool
  | [] => needle.isEmpty
  | c :: rest => chPre needle (c :: rest) || chSub needle rest

/-- `prop.get('value', 'false').lower() == 'true'`. -/
def isTrueStr (v : String) : Bool := lowerStr v == "true"

/-- Insert a key into a dict-keyset: `d[gid] = True` adds the key only if
it is not already present. -/
def dictAdd (l : List ℤ) (g : ℤ) : List ℤ := if g ∈ l then l else l ++ [g]

/-- Add the whole id range `firstgid .. firstgid + n - 1` of a tileset to
the collidable keyset (the `for i in range(tileset.get('tilecount', 0))`
loops in `identify_collidable_tiles`). -/
def dictAddRange (l : List ℤ) (firstgid : ℤ) (n : ℕ) : List ℤ :=
  ((List.range n).map (fun i : ℕ => firstgid + (i : ℤ))).foldl dictAdd l

/-- The tileset-level scan (`collision.py` lines 30-37): the loop breaks at
the first `collidable` property whose value is `"true"`. -/
def tilesetLevelCollidable (ts : Tileset) : Bool :=
  ts.properties.any (fun p => p.name == "collidable" && isTrueStr p.value)

/-- Body of the per-tile property loop (`collision.py` lines 52-65): a
`collidable=true` property adds `firstgid + tile_id`, and — nested inside
that branch — a tileset literally named `"Water"` additionally gets its
entire id range added. -/
def processTileProp (firstgid : ℤ) (ts : Tileset) (tid : ℕ)
    (acc : List ℤ) (p : PropKV) : List ℤ :=
  if p.name == "collidable" && isTrueStr p.value then
    let acc2 := dictAdd acc (firstgid + (tid : ℤ))
    if ts.name == "Water" then dictAddRange acc2 firstgid ts.tilecount else acc2
  else acc

/-- The per-tile loop (`collision.py` lines 49-65). -/
def processTile (firstgid : ℤ) (ts : Tileset) (acc : List ℤ) (ti : TileInfo) :
    List ℤ :=
  ti.properties.foldl (processTileProp firstgid ts ti.id) acc

/-- One iteration of the tileset loop (`collision.py` lines 25-65). -/
def processTileset (acc : List ℤ) (e : ℤ × Tileset) : List ℤ :=
  let acc2 :=
    if tilesetLevelCollidable e.2 then dictAddRange acc e.1 e.2.tilecount else acc
  e.2.tiles.foldl (processTile e.1 e.2) acc2

/-- `CollisionManager.identify_collidable_tiles`, as the keyset of the
`collidable_tiles` dictionary it builds from an empty one. -/
def identify_collidable_tiles (tilesets : List (ℤ × Tileset)) : List ℤ :=
  tilesets.foldl processTileset []

/-- `CollisionManager.is_tile_collidable`: membership in the
`collidable_tiles` keyset. -/
def is_tile_collidable (collidable_tiles : List ℤ) (gid : ℤ) : Bool :=
  decide (gid ∈ collidable_tiles)

/-! ### Membership lemmas for the collidable-tile accumulation -/

lemma mem_dictAdd_of_mem {l : List ℤ} {g : ℤ} (h : g ∈ l) (g' : ℤ) :
    g ∈ dictAdd l g' := by
  unfold dictAdd
  split
  · exact h
  · exact List.mem_append_left _ h

lemma mem_dictAdd_self (l : List ℤ) (g : ℤ) : g ∈ dictAdd l g := by
  unfold dictAdd
  split
  · assumption
  · exact List.mem_append_right _ (List.mem_singleton.mpr rfl)

lemma mem_foldl_dictAdd_of_mem {l : List ℤ} {g : ℤ} (h : g ∈ l)
    (xs : List ℤ) : g ∈ xs.foldl dictAdd l := by
  induction xs generalizing l with
  | nil => exact h
  | cons x xs ih => exact ih (mem_dictAdd_of_mem h x)

lemma mem_dictAddRange_of_mem {l : List ℤ} {g : ℤ} (h : g ∈ l)
    (f : ℤ) (n : ℕ) : g ∈ dictAddRange l f n :=
  mem_foldl_dictAdd_of_mem h _

lemma mem_foldl_dictAdd_self {g : ℤ} {xs : List ℤ} (hx : g ∈ xs)
    (l : List ℤ) : g ∈ xs.foldl dictAdd l := by
  induction xs generalizing l with
  | nil => cases hx
  | cons x xs ih =>
      rcases List.mem_cons.mp hx with h | h
      · subst h
        exact mem_foldl_dictAdd_of_mem (mem_dictAdd_self l g) xs
      · exact ih h _

lemma mem_dictAddRange_self {f : ℤ} {i n : ℕ} (hi : i < n) (l : List ℤ) :
    f + (i : ℤ) ∈ dictAddRange l f n := by
  apply mem_foldl_dictAdd_self
  have hmem : f + (i : ℤ) ∈ (List.range n).map (fun j : ℕ => f + (j : ℤ)) :=
    List.mem_map.mpr ⟨i, List.mem_range.mpr hi, rfl⟩
  exact hmem

lemma mem_processTileProp_of_mem {acc : List ℤ} {g : ℤ} (h : g ∈ acc)
    (firstgid : ℤ) (ts : Tileset) (tid : ℕ) (p : PropKV) :
    g ∈ processTileProp firstgid ts tid acc p := by
  unfold processTileProp
  split
  · split
    · exact mem_dictAddRange_of_mem (mem_dictAdd_of_mem h _) _ _
    · exact mem_dictAdd_of_mem h _
  · exact h

lemma mem_processTile_of_mem {acc : List ℤ} {g : ℤ} (h : g ∈ acc)
    (firstgid : ℤ) (ts : Tileset) (ti : TileInfo) :
    g ∈ processTile firstgid ts acc ti := by
  unfold processTile
  generalize ti.properties = ps
  induction ps generalizing acc with
  | nil => exact h
  | cons p ps ih => exact ih (mem_processTileProp_of_mem h _ _ _ _)

lemma mem_foldl_processTile_of_mem {acc : List ℤ} {g : ℤ} (h : g ∈ acc)
    (firstgid : ℤ) (ts : Tileset) (tis : List TileInfo) :
    g ∈ tis.foldl (processTile firstgid ts) acc := by
  induction tis generalizing acc with
  | nil => exact h
  | cons t ts' ih => exact ih (mem_processTile_of_mem h _ _ _)

lemma mem_processTileset_of_mem {acc : List ℤ} {g : ℤ} (h : g ∈ acc)
    (e : ℤ × Tileset) : g ∈ processTileset acc e := by
  unfold processTileset
  apply mem_foldl_processTile_of_mem
  split
  · exact mem_dictAddRange_of_mem h _ _
  · exact h

lemma mem_foldl_processTileset_of_mem {acc : List ℤ} {g : ℤ} (h : g ∈ acc)
    (ts : List (ℤ × Tileset)) : g ∈ ts.foldl processTileset acc := by
  induction ts generalizing acc with
  | nil => exact h
  | cons e es ih => exact ih (mem_processTileset_of_mem h _)

lemma mem_foldl_of_mem_mono {α : Type} (f : List ℤ → α → List ℤ) (g : ℤ)
    (mono : ∀ a e, g ∈ a → g ∈ f a e) (xs : List α) {a : List ℤ} (h : g ∈ a) :
    g ∈ xs.foldl f a := by
  induction xs generalizing a with
  | nil => exact h
  | cons x xs ih => exact ih (mono _ _ h)

lemma mem_foldl_of_estab {α : Type} (f : List ℤ → α → List ℤ) (g : ℤ)
    (mono : ∀ a e, g ∈ a → g ∈ f a e) {x : α} {xs : List α} (hx : x ∈ xs)
    (est : ∀ a, g ∈ f a x) (a : List ℤ) : g ∈ xs.foldl f a := by
  induction xs generalizing a with
  | nil => cases hx
  | cons y ys ih =>
      rcases List.mem_cons.mp hx with h | h
      · subst h
        exact mem_foldl_of_mem_mono f g mono ys (est a)
      · exact ih h _

lemma processTileProp_estab {firstgid : ℤ} {ts : Tileset} {p : PropKV} {i : ℕ}
    (hname : ts.name = "Water") (hpn : p.name = "collidable")
    (hpv : isTrueStr p.value = true) (hi : i < ts.tilecount)
    (tid : ℕ) (acc : List ℤ) :
    firstgid + (i : ℤ) ∈ processTileProp firstgid ts tid acc p := by
  unfold processTileProp
  rw [hpn, hname]
  simp only [hpv, beq_self_eq_true, Bool.and_true, if_true]
  exact mem_dictAddRange_self hi _

lemma processTile_estab {firstgid : ℤ} {ts : Tileset} {ti : TileInfo}
    {p : PropKV} {i : ℕ}
    (hp : p ∈ ti.properties) (hname : ts.name = "Water")
    (hpn : p.name = "collidable") (hpv : isTrueStr p.value = true)
    (hi : i < ts.tilecount) (acc : List ℤ) :
    firstgid + (i : ℤ) ∈ processTile firstgid ts acc ti :=
  mem_foldl_of_estab _ _ (fun _ e h => mem_processTileProp_of_mem h _ _ _ e) hp
    (fun a => processTileProp_estab hname hpn hpv hi _ a) acc

lemma processTileset_estab {firstgid : ℤ} {ts : Tileset} {ti : TileInfo}
    {p : PropKV} {i : ℕ}
    (hti : ti ∈ ts.tiles) (hp : p ∈ ti.properties) (hname : ts.name = "Water")
    (hpn : p.name = "collidable") (hpv : isTrueStr p.value = true)
    (hi : i < ts.tilecount) (acc : List ℤ) :
    firstgid + (i : ℤ) ∈ processTileset acc (firstgid, ts) := by
  unfold processTileset
  exact mem_foldl_of_estab _ _ (fun a e h => mem_processTile_of_mem h _ _ e) hti
    (fun a => processTile_estab hp hname hpn hpv hi a) _

/-- **C2, counterexample.** A tileset literally named `"Water"` whose tiles
carry no explicit `collidable=true` property at all: the name-based override
never fires (it is nested inside the per-tile `collidable=true` branch), so
the gids in its range are *not* collidable, contradicting the claim that the
whole range is marked "regardless of which, if any, individual tiles carry an
explicit collidable=true property". -/
theorem water_override_not_unconditional :
    is_tile_collidable
      (identify_collidable_tiles [(1, Tileset.mk "Water" [] 2 [])]) 1 = false := by
  decide

/-- **C2 (amended).** The `"Water"` full-range override fires only when some
tile of the tileset carries an explicit `collidable=true` per-tile property;
whenever such a tile exists, every gid in `firstgid .. firstgid+tilecount-1`
is marked collidable, so `is_tile_collidable` returns true on the whole range. -/
theorem water_tileset_full_range_collidable
    (tilesets : List (ℤ × Tileset)) (fg : ℤ) (ts : Tileset)
    (ti : TileInfo) (p : PropKV) (i : ℕ)
    (he : (fg, ts) ∈ tilesets) (hname : ts.name = "Water")
    (hti : ti ∈ ts.tiles) (hp : p ∈ ti.properties)
    (hpn : p.name = "collidable") (hpv : isTrueStr p.value = true)
    (hi : i < ts.tilecount) :
    is_tile_collidable (identify_collidable_tiles tilesets) (fg + (i : ℤ)) = true := by
  unfold is_tile_collidable identify_collidable_tiles
  rw [decide_eq_true_eq]
  exact mem_foldl_of_estab _ _ (fun a e h => mem_processTileset_of_mem h e) he
    (fun a => processTileset_estab hti hp hname hpn hpv hi a) _

/-- Closed witness for `water_tileset_full_range_collidable`: a `"Water"`
tileset with `firstgid = 1`, `tilecount = 3`, where only local tile 0 is
tagged collidable; gid `1 + 2 = 3` is still collidable. -/
theorem water_tileset_full_range_collidable_witness :
    is_tile_collidable
      (identify_collidable_tiles
        [(1, Tileset.mk "Water" [] 3 [TileInfo.mk 0 [PropKV.mk "collidable" "true"]])])
      (1 + (2 : ℕ)) = true :=
  water_tileset_full_range_collidable _ 1
    (Tileset.mk "Water" [] 3 [TileInfo.mk 0 [PropKV.mk "collidable" "true"]])
    (TileInfo.mk 0 [PropKV.mk "collidable" "true"])
    (PropKV.mk "collidable" "true") 2
    (by decide) rfl (by decide) (by decide) rfl (by decide) (by decide)

/-! ### Collision objects, layers, and the manager state -/

/-- The tagged shape variant stored in `collision_objects`
(tile-fractional coordinates). -/
inductive CollisionObj where
  | polygon (points : List (ℚ × ℚ))
  | rect (x y width height : ℚ)
  | ellipse (x y width height : ℚ)
deriving DecidableEq, Repr

/-- The fields of a map object read by `load_collision_objects`
(`obj.get('x', 0)` etc.; `polygon = some pts` models `'polygon' in obj`). -/
structure MapObject where
  x : ℚ
  y : ℚ
  width : ℚ
  height : ℚ
  isEllipse : Bool
  polygon : Option (List (ℚ × ℚ))
deriving DecidableEq, Repr

/-- The fields of a map layer read by the collision build
(`layer['type']`, `layer['name']`, `layer.get('visible', True)`,
`layer.get('data', [])`, `layer.get('objects', [])`). -/
structure Layer where
  kind : String
  name : String
  visible : Bool
  data : List ℤ
  objects : List MapObject
deriving DecidableEq, Repr

/-- Python `'collision' in layer['name'].lower()`. -/
def hasCollisionName (s : String) : Bool := chSub "collision".data (lowerStr s).data

/-- Conversion of one map object (`collision.py` lines 79-116): polygons keep
all their points (origin plus per-point offset, divided by tile dimensions);
non-polygons with zero width or height are skipped; the rest become a
rectangle, or an ellipse when flagged. -/
def objToCollision (tw th : ℤ) (o : MapObject) : Option CollisionObj :=
  let x := o.x / (tw : ℚ)
  let y := o.y / (th : ℚ)
  let w := o.width / (tw : ℚ)
  let h := o.height / (th : ℚ)
  match o.polygon with
  | some pts =>
      some (CollisionObj.polygon
        (pts.map (fun p => (x + p.1 / (tw : ℚ), y + p.2 / (th : ℚ)))))
  | none =>
      if w = 0 ∨ h = 0 then none
      else if o.isEllipse then some (CollisionObj.ellipse x y w h)
      else some (CollisionObj.rect x y w h)

/-- One iteration of the object loop in `load_collision_objects`
(`self.collision_objects.append(collision_obj)`, skipped objects add
nothing). -/
def objStep (tw th : ℤ) (acc : List CollisionObj) (o : MapObject) :
    List CollisionObj :=
  match objToCollision tw th o with
  | some c => acc ++ [c]
  | none => acc

/-- One iteration of the layer loop in `load_collision_objects`: only
object layers whose lower-cased name contains `"collision"` contribute. -/
def layerStep (tw th : ℤ) (acc : List CollisionObj) (L : Layer) :
    List CollisionObj :=
  if L.kind == "objectgroup" && hasCollisionName L.name then
    L.objects.foldl (objStep tw th) acc
  else acc

/-- `CollisionManager.load_collision_objects`: appends (never clears) the
shapes of every object layer whose lower-cased name contains `"collision"`
onto the existing `collision_objects` list. -/
def load_collision_objects (tw th : ℤ) (layers : List Layer)
    (acc : List CollisionObj) : List CollisionObj :=
  layers.foldl (layerStep tw th) acc

/-- The `CollisionManager` state: constructor fields plus the data the three
build steps fill in. The sparse `spatial_grid` dictionary is modelled as a
total function from cell keys to buckets — a missing key and an empty bucket
are observably identical in every query. -/
structure CollisionManager where
  tile_width : ℤ
  tile_height : ℤ
  map_width : ℕ
  map_height : ℕ
  collision_map : List Bool
  collidable_tiles : List ℤ
  collision_objects : List CollisionObj
  spatial_grid : (ℤ × ℤ) → List ℕ
  grid_cell_size : ℤ

/-- `CollisionManager.__init__`: flat all-false map of size `w*h`, empty
collidable set, no objects, empty spatial grid, cell size 32. -/
def CollisionManager.init (tw th : ℤ) (w h : ℕ) : CollisionManager :=
  ⟨tw, th, w, h, List.replicate (w * h) false, [], [], fun _ => [], 32⟩

/-! ### Spatial broad-phase grid (`_build_spatial_grid`) -/

/-- The `range(start, end)` rectangle of grid cells one object is registered
into. -/
structure GridRange where
  sx : ℤ
  sy : ℤ
  ex : ℤ
  ey : ℤ
deriving DecidableEq, Repr

/-- A pixel-space axis-aligned bounding box. -/
structure BBoxPx where
  minx : ℚ
  miny : ℚ
  maxx : ℚ
  maxy : ℚ
deriving DecidableEq, Repr

/-- The pixel-space bounding box `_build_spatial_grid` derives for one
object: for polygons the min/max over all points (times tile size), for
rectangles and ellipses position and position-plus-size (times tile size).
Empty polygons are skipped (`continue`). -/
def objBBoxPx (tw th : ℤ) (o : CollisionObj) : Option BBoxPx :=
  match o with
  | CollisionObj.polygon pts =>
      match pts with
      | [] => none
      | p :: rest =>
          some ⟨(rest.foldl (fun m q => min m q.1) p.1) * (tw : ℚ),
                (rest.foldl (fun m q => min m q.2) p.2) * (th : ℚ),
                (rest.foldl (fun m q => max m q.1) p.1) * (tw : ℚ),
                (rest.foldl (fun m q => max m q.2) p.2) * (th : ℚ)⟩
  | CollisionObj.rect x y w h =>
      some ⟨x * (tw : ℚ), y * (th : ℚ), (x + w) * (tw : ℚ), (y + h) * (th : ℚ)⟩
  | CollisionObj.ellipse x y w h =>
      some ⟨x * (tw : ℚ), y * (th : ℚ), (x + w) * (tw : ℚ), (y + h) * (th : ℚ)⟩

/-- The cell range computed for one object (`collision.py` lines 172-195):
pixel-space bounding box floor-divided by the grid cell size; the start is
clamped at 0, the end is the floor of the max plus one. -/
def objGridRange (tw th cs : ℤ) (o : CollisionObj) : Option GridRange :=
  (objBBoxPx tw th o).map
    (fun bb =>
      ⟨max 0 (fdivQ bb.minx (cs : ℚ)), max 0 (fdivQ bb.miny (cs : ℚ)),
       fdivQ bb.maxx (cs : ℚ) + 1, fdivQ bb.maxy (cs : ℚ) + 1⟩)

/-- Register index `idx` into every cell of the range (the nested
`for grid_y in range(start_y, end_y): for grid_x in range(start_x, end_x)`
loops, which append `idx` to each such bucket once). -/
def addObjCells (idx : ℕ) (r : GridRange) (g : (ℤ × ℤ) → List ℕ) :
    (ℤ × ℤ) → List ℕ :=
  fun c =>
    if r.sx ≤ c.1 ∧ c.1 < r.ex ∧ r.sy ≤ c.2 ∧ c.2 < r.ey then g c ++ [idx]
    else g c

/-- The `for obj_idx, obj in enumerate(self.collision_objects)` loop. -/
def buildGridAux (tw th cs : ℤ) :
    ℕ → List CollisionObj → ((ℤ × ℤ) → List ℕ) → ((ℤ × ℤ) → List ℕ)
  | _, [], g => g
  | idx, o :: rest, g =>
      let g2 :=
        match objGridRange tw th cs o with
        | none => g
        | some r => addObjCells idx r g
      buildGridAux tw th cs (idx + 1) rest g2

/-- `CollisionManager._build_spatial_grid`: rebuild the grid from scratch
(`self.spatial_grid = {}`) from the current object list. -/
def build_spatial_grid (m : CollisionManager) : CollisionManager :=
  { m with
    spatial_grid :=
      buildGridAux m.tile_width m.tile_height m.grid_cell_size 0
        m.collision_objects (fun _ => []) }

/-! ### Dense occupancy grid (`build_collision_map`) -/

/-- Whether the cell at flat index `idx` receives a mark from layer `L`:
the stored gid exists (`index < len(data)`), is non-zero, and is in the
collidable set. -/
def layerCond (ct : List ℤ) (L : Layer) (idx : ℕ) : Bool :=
  match L.data.get? idx with
  | some gid => !(gid == 0) && decide (gid ∈ ct)
  | none => false

/-- Apply `cond` to every flat index of the occupancy list, or-ing marks in.
The Python double loop over `y < map_height`, `x < map_width` writes exactly
the flat indices `0 .. w*h-1`, i.e. every index of the length-`w*h`
`collision_map` list, each once. -/
def markFrom (cond : ℕ → Bool) : ℕ → List Bool → List Bool
  | _, [] => []
  | k, b :: rest => (b || cond k) :: markFrom cond (k + 1) rest

/-- One tile layer's contribution: only visible `tilelayer` layers mark. -/
def markLayer (ct : List ℤ) (cmap : List Bool) (L : Layer) : List Bool :=
  if L.kind == "tilelayer" && L.visible then markFrom (layerCond ct L) 0 cmap
  else cmap

/-- `CollisionManager.build_collision_map`: mark collidable tiles from every
visible tile layer (the existing marks are never cleared), then rebuild the
spatial grid. -/
def build_collision_map (m : CollisionManager) (layers : List Layer) :
    CollisionManager :=
  build_spatial_grid
    { m with
      collision_map := layers.foldl (markLayer m.collidable_tiles) m.collision_map }

/-- The full collision build in the order `World.load_map` performs it:
`load_collision_objects`, then `identify_collidable_tiles` (both of which
accumulate into the existing state), then `build_collision_map`. -/
def runBuild (m : CollisionManager) (layers : List Layer)
    (tilesets : List (ℤ × Tileset)) : CollisionManager :=
  let m1 :=
    { m with
      collision_objects :=
        load_collision_objects m.tile_width m.tile_height layers
          m.collision_objects }
  let m2 :=
    { m1 with collidable_tiles := tilesets.foldl processTileset m1.collidable_tiles }
  build_collision_map m2 layers

/-! ### Point queries -/

/-- The short-circuit guard of the crossing test: the two endpoint
y-coordinates lie on opposite sides of the ray height
(`(points[i][1] > y) != (points[j][1] > y)`). Only when it holds does
Python evaluate the right conjunct, whose division is by `b.2 - a.2`. -/
def rayGuard (y : ℚ) (a b : ℚ × ℚ) : Bool :=
  decide (a.2 > y) != decide (b.2 > y)

/-- The crossing test of one polygon edge inside `point_in_polygon`
(`collision.py` lines 220-222); the division is modelled as total rational
division, evaluated only under `rayGuard` by the `&&` short circuit. -/
def rayCrosses (x y : ℚ) (a b : ℚ × ℚ) : Bool :=
  rayGuard y a b &&
  decide (x < (b.1 - a.1) * (y - a.2) / (b.2 - a.2) + a.1)

/-- `CollisionManager.point_in_polygon`: even-odd ray casting over the edges
`(points[i], points[j])` with `j` running one step behind `i` (starting at
the last point). -/
def point_in_polygon (x y : ℚ) (points : List (ℚ × ℚ)) : Bool :=
  let n := points.length
  (List.range n).foldl
    (fun inside i =>
      let a := points.getD i (0, 0)
      let b := points.getD ((i + n - 1) % n) (0, 0)
      if rayCrosses x y a b then !inside else inside)
    false

/-- The exact containment test run for one candidate object in
`is_position_collidable` (`collision.py` lines 254-286). -/
def objMatch (tw th : ℤ) (x y : ℚ) (o : CollisionObj) : Bool :=
  match o with
  | CollisionObj.polygon pts =>
      point_in_polygon (x / (tw : ℚ)) (y / (th : ℚ)) pts
  | CollisionObj.rect rx ry rw rh =>
      let ox := rx * (tw : ℚ)
      let oy := ry * (th : ℚ)
      let ow := rw * (tw : ℚ)
      let oh := rh * (th : ℚ)
      decide (ox ≤ x) && decide (x < ox + ow) &&
      decide (oy ≤ y) && decide (y < oy + oh)
  | CollisionObj.ellipse rx ry rw rh =>
      let ox := rx * (tw : ℚ)
      let oy := ry * (th : ℚ)
      let ow := rw * (tw : ℚ)
      let oh := rh * (th : ℚ)
      if ow = 0 ∨ oh = 0 then false
      else
        let dx := (x - (ox + ow / 2)) / (ow / 2)
        let dy := (y - (oy + oh / 2)) / (oh / 2)
        decide (dx * dx + dy * dy ≤ 1)

/-- The dense-grid half of `is_position_collidable`: the tile cell is in
bounds and marked. -/
def denseHit (m : CollisionManager) (x y : ℚ) : Bool :=
  let tileX := fdivQ x (m.tile_width : ℚ)
  let tileY := fdivQ y (m.tile_height : ℚ)
  decide (0 ≤ tileX) && decide (tileX < (m.map_width : ℤ)) &&
  decide (0 ≤ tileY) && decide (tileY < (m.map_height : ℤ)) &&
  m.collision_map.getD (tileY * (m.map_width : ℤ) + tileX).toNat false

/-- The spatial-hash half of `is_position_collidable`: candidates of the
point's own broad-phase cell, tested exactly. (Indices produced by the build
always point into `collision_objects`; an out-of-range index contributes
nothing.) -/
def spatialHit (m : CollisionManager) (x y : ℚ) : Bool :=
  let gx := fdivQ x (m.grid_cell_size : ℚ)
  let gy := fdivQ y (m.grid_cell_size : ℚ)
  (m.spatial_grid (gx, gy)).any
    (fun idx =>
      match m.collision_objects.get? idx with
      | some o => objMatch m.tile_width m.tile_height x y o
      | none => false)

/-- `CollisionManager.is_position_collidable`: dense tile check first
(early return true), then the broad-phase bucket of the query point. -/
def is_position_collidable (m : CollisionManager) (x y : ℚ) : Bool :=
  denseHit m x y || spatialHit m x y

/-! ### C10: the polygon test never divides by zero -/

/-- **C10.** Whenever the guard of the ray-casting crossing test holds for an
edge `(a, b)` — including edges of degenerate polygons with repeated or
collinear points — the two y-coordinates differ, so the denominator
`b.2 - a.2` of the division in `rayCrosses` is non-zero: the
`point_in_polygon` test is total and never divides by zero. -/
theorem rayGuard_denominator_ne_zero (y : ℚ) (a b : ℚ × ℚ)
    (h : rayGuard y a b = true) : b.2 - a.2 ≠ 0 := by
  intro hz
  have hev : b.2 = a.2 := by linarith [sub_eq_zero.mp hz]
  unfold rayGuard at h
  rw [hev] at h
  simp at h

/-- Closed witness for `rayGuard_denominator_ne_zero` at the edge
`a = (0, 1)`, `b = (0, 0)` and ray height `y = 0`. -/
theorem rayGuard_denominator_ne_zero_witness :
    ((0 : ℚ), (0 : ℚ)).2 - ((0 : ℚ), (1 : ℚ)).2 ≠ 0 :=
  rayGuard_denominator_ne_zero 0 (0, 1) (0, 0) (by decide)

/-! ### C6: out-of-bounds queries skip the dense grid, not the spatial hash -/

/-- **C6.** For every query point whose tile-cell coordinates fall outside
the map extent, `is_position_collidable` is total (no failure is modelled
because none can occur: the sole array access is guarded by the bounds
check), the dense-grid lookup is skipped — the tile contribution is "not
blocked" — and the result is exactly the spatial-hash half of the query, so
a shape registered outside the tile grid can still block the point. -/
theorem oob_query_is_spatial_only (m : CollisionManager) (x y : ℚ)
    (h : ¬ (0 ≤ fdivQ x (m.tile_width : ℚ) ∧
            fdivQ x (m.tile_width : ℚ) < (m.map_width : ℤ) ∧
            0 ≤ fdivQ y (m.tile_height : ℚ) ∧
            fdivQ y (m.tile_height : ℚ) < (m.map_height : ℤ))) :
    is_position_collidable m x y = spatialHit m x y := by
  unfold is_position_collidable
  suffices hd : denseHit m x y = false by rw [hd]; exact Bool.false_or _
  unfold denseHit
  by_cases hA : 0 ≤ fdivQ x (m.tile_width : ℚ)
  · by_cases hB : fdivQ x (m.tile_width : ℚ) < (m.map_width : ℤ)
    · by_cases hC : 0 ≤ fdivQ y (m.tile_height : ℚ)
      · by_cases hD : fdivQ y (m.tile_height : ℚ) < (m.map_height : ℤ)
        · exact absurd ⟨hA, hB, hC, hD⟩ h
        · simp [hD]
      · simp [hC]
    · simp [hB]
  · simp [hA]

/-- Closed witness for `oob_query_is_spatial_only`: a 2×2-tile map (16-pixel
tiles) with one collision rectangle placed entirely to the right of the map
(pixels `[48, 64) × [0, 16)`); the pixel point `(50, 8)` has tile cell
`(3, 0)`, outside the map, yet the query still consults the spatial hash and
reports the point blocked. -/
theorem oob_query_is_spatial_only_witness :
    (¬ (0 ≤ fdivQ 50 ((16 : ℤ) : ℚ) ∧ fdivQ 50 ((16 : ℤ) : ℚ) < ((2 : ℕ) : ℤ) ∧
        0 ≤ fdivQ 8 ((16 : ℤ) : ℚ) ∧ fdivQ 8 ((16 : ℤ) : ℚ) < ((2 : ℕ) : ℤ))) ∧
    is_position_collidable
      (runBuild (CollisionManager.init 16 16 2 2)
        [Layer.mk "objectgroup" "collision" true []
          [MapObject.mk 48 0 16 16 false none]] []) 50 8 =
    spatialHit
      (runBuild (CollisionManager.init 16 16 2 2)
        [Layer.mk "objectgroup" "collision" true []
          [MapObject.mk 48 0 16 16 false none]] []) 50 8 ∧
    spatialHit
      (runBuild (CollisionManager.init 16 16 2 2)
        [Layer.mk "objectgroup" "collision" true []
          [MapObject.mk 48 0 16 16 false none]] []) 50 8 = true :=
  ⟨by with_unfolding_all decide,
   oob_query_is_spatial_only _ 50 8 (by with_unfolding_all decide),
   by with_unfolding_all decide⟩

/-! ### C4: broad-phase conservativeness -/

/-- The spec-side overlap notion of C4: the half-open broad-phase cell
`[c.1*cs, (c.1+1)*cs) × [c.2*cs, (c.2+1)*cs)` intersects the closed
pixel-space bounding box. -/
def cellOverlapsBBox (cs : ℤ) (c : ℤ × ℤ) (bb : BBoxPx) : Prop :=
  ((c.1 * cs : ℤ) : ℚ) ≤ bb.maxx ∧ bb.minx < (((c.1 + 1) * cs : ℤ) : ℚ) ∧
  ((c.2 * cs : ℤ) : ℚ) ≤ bb.maxy ∧ bb.miny < (((c.2 + 1) * cs : ℤ) : ℚ)

/-- Cell `c` lies in the registration rectangle of a `GridRange`. -/
def inGridRange (r : GridRange) (c : ℤ × ℤ) : Prop :=
  r.sx ≤ c.1 ∧ c.1 < r.ex ∧ r.sy ≤ c.2 ∧ c.2 < r.ey

instance (cs : ℤ) (c : ℤ × ℤ) (bb : BBoxPx) :
    Decidable (cellOverlapsBBox cs c bb) := by
  unfold cellOverlapsBBox
  infer_instance

instance (r : GridRange) (c : ℤ × ℤ) : Decidable (inGridRange r c) := by
  unfold inGridRange
  infer_instance

lemma mem_addObjCells_of_mem {g : (ℤ × ℤ) → List ℕ} {j : ℕ} {c : ℤ × ℤ}
    (h : j ∈ g c) (idx : ℕ) (r : GridRange) : j ∈ addObjCells idx r g c := by
  unfold addObjCells
  split
  · exact List.mem_append_left _ h
  · exact h

lemma mem_addObjCells_self {r : GridRange} {c : ℤ × ℤ} (hc : inGridRange r c)
    (idx : ℕ) (g : (ℤ × ℤ) → List ℕ) : idx ∈ addObjCells idx r g c := by
  unfold addObjCells
  split
  next => exact List.mem_append_right _ (List.mem_singleton.mpr rfl)
  next h => exact absurd hc h

lemma mem_buildGridAux_of_mem {tw th cs : ℤ} {g : (ℤ × ℤ) → List ℕ} {j : ℕ}
    {c : ℤ × ℤ} (h : j ∈ g c) (idx : ℕ) (objs : List CollisionObj) :
    j ∈ buildGridAux tw th cs idx objs g c := by
  induction objs generalizing idx g with
  | nil => exact h
  | cons o rest ih =>
      unfold buildGridAux
      cases hr : objGridRange tw th cs o with
      | none => exact ih h _
      | some r => exact ih (mem_addObjCells_of_mem h idx r) _

lemma mem_buildGridAux_of_get {tw th cs : ℤ} {objs : List CollisionObj}
    {k : ℕ} {o : CollisionObj} (hk : objs.get? k = some o)
    {r : GridRange} (hr : objGridRange tw th cs o = some r)
    {c : ℤ × ℤ} (hc : inGridRange r c) (idx : ℕ) (g : (ℤ × ℤ) → List ℕ) :
    idx + k ∈ buildGridAux tw th cs idx objs g c := by
  induction objs generalizing idx k g with
  | nil => cases hk
  | cons o' rest ih =>
      cases k with
      | zero =>
          have ho : o' = o := by simpa using hk
          subst ho
          unfold buildGridAux
          rw [hr]
          exact mem_buildGridAux_of_mem (mem_addObjCells_self hc idx g) _ _
      | succ k' =>
          have hk' : rest.get? k' = some o := by simpa using hk
          unfold buildGridAux
          have hstep := ih hk' (idx + 1)
          have harith : idx + 1 + k' = idx + (k' + 1) := by omega
          rw [harith] at hstep
          cases hro : objGridRange tw th cs o' with
          | none => exact hstep _
          | some r' => exact hstep _

lemma inGridRange_of_overlap {cs : ℤ} (hcs : 0 < cs) {bb : BBoxPx}
    (hx : 0 ≤ bb.minx) (hy : 0 ≤ bb.miny) {c : ℤ × ℤ}
    (hc : cellOverlapsBBox cs c bb) :
    inGridRange
      ⟨max 0 (fdivQ bb.minx (cs : ℚ)), max 0 (fdivQ bb.miny (cs : ℚ)),
       fdivQ bb.maxx (cs : ℚ) + 1, fdivQ bb.maxy (cs : ℚ) + 1⟩ c := by
  obtain ⟨h1, h2, h3, h4⟩ := hc
  have hcsQ : (0 : ℚ) < (cs : ℚ) := by exact_mod_cast hcs
  push_cast at h1 h2 h3 h4
  have hc1pos : (0 : ℚ) < ((c.1 : ℚ) + 1) * (cs : ℚ) := lt_of_le_of_lt hx h2
  have hc2pos : (0 : ℚ) < ((c.2 : ℚ) + 1) * (cs : ℚ) := lt_of_le_of_lt hy h4
  have hc1 : (0 : ℚ) < (c.1 : ℚ) + 1 := by
    by_contra hneg
    push_neg at hneg
    nlinarith
  have hc2 : (0 : ℚ) < (c.2 : ℚ) + 1 := by
    by_contra hneg
    push_neg at hneg
    nlinarith
  unfold inGridRange fdivQ
  dsimp only
  have hflx1 : ⌊bb.minx / (cs : ℚ)⌋ < c.1 + 1 := by
    apply Int.floor_lt.mpr
    push_cast
    rw [div_lt_iff₀ hcsQ]
    linarith
  have hflx2 : c.1 ≤ ⌊bb.maxx / (cs : ℚ)⌋ := by
    apply Int.le_floor.mpr
    rw [le_div_iff₀ hcsQ]
    linarith
  have hfly1 : ⌊bb.miny / (cs : ℚ)⌋ < c.2 + 1 := by
    apply Int.floor_lt.mpr
    push_cast
    rw [div_lt_iff₀ hcsQ]
    linarith
  have hfly2 : c.2 ≤ ⌊bb.maxy / (cs : ℚ)⌋ := by
    apply Int.le_floor.mpr
    rw [le_div_iff₀ hcsQ]
    linarith
  have hz1 : (0 : ℤ) < c.1 + 1 := by exact_mod_cast hc1
  have hz2 : (0 : ℤ) < c.2 + 1 := by exact_mod_cast hc2
  refine ⟨max_le (by omega) (by omega), by omega,
          max_le (by omega) (by omega), by omega⟩

/-- **C4, counterexample.** The `max(0, ...)` clamp on the start cell drops
the cells with negative coordinates: a rectangle at tile coordinates
`(-1, 0)` of size `2 × 1` (tile size 32, cell size 32, so pixel bounding box
`[-32, 32] × [0, 32]`) overlaps broad-phase cell `(-1, 0)`, yet after the
build its index 0 is not registered in that cell's bucket — the broad phase
under-includes, and the query for a point in that cell misses the shape. -/
theorem spatial_grid_under_inclusion :
    (runBuild (CollisionManager.init 32 32 4 4)
        [Layer.mk "objectgroup" "collision" true []
          [MapObject.mk (-32) 0 64 32 false none]] []).collision_objects.get? 0 =
      some (CollisionObj.rect (-1) 0 2 1) ∧
    objBBoxPx 32 32 (CollisionObj.rect (-1) 0 2 1) =
      some (BBoxPx.mk (-32) 0 32 32) ∧
    cellOverlapsBBox 32 ((-1 : ℤ), (0 : ℤ)) (BBoxPx.mk (-32) 0 32 32) ∧
    ¬ (0 ∈ (runBuild (CollisionManager.init 32 32 4 4)
        [Layer.mk "objectgroup" "collision" true []
          [MapObject.mk (-32) 0 64 32 false none]] []).spatial_grid
          ((-1 : ℤ), (0 : ℤ))) := by
  refine ⟨?_, ?_, ?_, ?_⟩ <;> with_unfolding_all decide

/-- **C4 (amended).** For every collision shape whose pixel-space bounding
box lies in the non-negative quadrant (`0 ≤ minx`, `0 ≤ miny` — the only
shapes the clamped loop can cover), every broad-phase cell overlapping that
bounding box receives the shape's index in its bucket after
`_build_spatial_grid`: for such shapes the broad phase may over-include but
never under-includes. Shapes extending to negative coordinates can be
dropped from negative cells (see the counterexample). -/
theorem spatial_grid_conservative_nonneg (m0 : CollisionManager)
    (hcs : 0 < m0.grid_cell_size) (k : ℕ) (o : CollisionObj)
    (hk : m0.collision_objects.get? k = some o) (bb : BBoxPx)
    (hbb : objBBoxPx m0.tile_width m0.tile_height o = some bb)
    (hx : 0 ≤ bb.minx) (hy : 0 ≤ bb.miny) (c : ℤ × ℤ)
    (hc : cellOverlapsBBox m0.grid_cell_size c bb) :
    k ∈ (build_spatial_grid m0).spatial_grid c := by
  have hr : objGridRange m0.tile_width m0.tile_height m0.grid_cell_size o =
      some ⟨max 0 (fdivQ bb.minx (m0.grid_cell_size : ℚ)),
            max 0 (fdivQ bb.miny (m0.grid_cell_size : ℚ)),
            fdivQ bb.maxx (m0.grid_cell_size : ℚ) + 1,
            fdivQ bb.maxy (m0.grid_cell_size : ℚ) + 1⟩ := by
    unfold objGridRange
    rw [hbb]
    rfl
  have hin := inGridRange_of_overlap hcs hx hy hc
  have := mem_buildGridAux_of_get hk hr hin 0 (fun _ => [])
  simpa [build_spatial_grid] using this

/-- Closed witness for `spatial_grid_conservative_nonneg`: a manager holding
one rectangle at tile coordinates `(1, 0)`, size `1 × 1`, tile and cell size
32; cell `(1, 0)` overlaps its pixel bounding box `[32, 64] × [0, 32]` and
indeed holds index 0 after the build. -/
theorem spatial_grid_conservative_nonneg_witness :
    0 ∈ (build_spatial_grid
      (CollisionManager.mk 32 32 4 4 (List.replicate 16 false) []
        [CollisionObj.rect 1 0 1 1] (fun _ => []) 32)).spatial_grid
      ((1 : ℤ), (0 : ℤ)) :=
  spatial_grid_conservative_nonneg _ (by decide) 0 (CollisionObj.rect 1 0 1 1)
    (by with_unfolding_all decide) (BBoxPx.mk 32 0 64 32)
    (by with_unfolding_all decide) (by with_unfolding_all decide)
    (by with_unfolding_all decide) ((1 : ℤ), (0 : ℤ))
    (by with_unfolding_all decide)

/-! ### C5: rectangle containment is half-open -/

lemma cell_floor_bounds {cs : ℤ} (hcs : 0 < cs) (x : ℚ) :
    ((fdivQ x (cs : ℚ)) : ℚ) * (cs : ℚ) ≤ x ∧
    x < ((fdivQ x (cs : ℚ) : ℚ) + 1) * (cs : ℚ) := by
  have hcsQ : (0 : ℚ) < (cs : ℚ) := by exact_mod_cast hcs
  unfold fdivQ
  constructor
  · have h := Int.floor_le (x / (cs : ℚ))
    calc ((⌊x / (cs : ℚ)⌋ : ℚ)) * (cs : ℚ) ≤ (x / (cs : ℚ)) * (cs : ℚ) := by
          exact mul_le_mul_of_nonneg_right h (le_of_lt hcsQ)
      _ = x := div_mul_cancel₀ x (ne_of_gt hcsQ)
  · have h := Int.lt_floor_add_one (x / (cs : ℚ))
    calc x = (x / (cs : ℚ)) * (cs : ℚ) := (div_mul_cancel₀ x (ne_of_gt hcsQ)).symm
      _ < ((⌊x / (cs : ℚ)⌋ : ℚ) + 1) * (cs : ℚ) := by
          exact mul_lt_mul_of_pos_right h hcsQ

/-- **C5, counterexample.** The rectangle loaded from a collision object at
pixel `(-32, 0)`, size `64 × 32` (tile size 32) has half-open pixel bounds
`[-32, 32) × [0, 32)`; the point `(-16, 16)` is inside them, yet the blocked
query returns false — its broad-phase cell `(-1, 0)` was clamped away during
the build, so the claim's "returns true for every point with
rx ≤ x < rx+rw ∧ ry ≤ y < ry+rh" fails for rectangles extending to negative
coordinates. -/
theorem rect_query_misses_negative_rect :
    (runBuild (CollisionManager.init 32 32 4 4)
        [Layer.mk "objectgroup" "collision" true []
          [MapObject.mk (-32) 0 64 32 false none]] []).collision_objects.get? 0 =
      some (CollisionObj.rect (-1) 0 2 1) ∧
    ((-1 : ℚ) * 32 ≤ -16 ∧ (-16 : ℚ) < ((-1) + 2) * 32 ∧
     (0 : ℚ) * 32 ≤ 16 ∧ (16 : ℚ) < (0 + 1) * 32) ∧
    is_position_collidable
      (runBuild (CollisionManager.init 32 32 4 4)
        [Layer.mk "objectgroup" "collision" true []
          [MapObject.mk (-32) 0 64 32 false none]] []) (-16) 16 = false := by
  refine ⟨?_, ?_, ?_⟩ <;> with_unfolding_all decide

/-- **C5 (amended).** For every registered rectangle whose pixel-space
origin is in the non-negative quadrant: (a) the blocked query returns true
for every point `(x, y)` with `rx*tw ≤ x < (rx+rw)*tw` and
`ry*th ≤ y < (ry+rh)*th` (left/top edge inside) once the spatial grid is
built; and (b) the rectangle's exact containment test contributes no match
for any point on the right/bottom edge or strictly outside those bounds.
(Rectangles extending to negative pixel coordinates can be missed by the
query — see the counterexample.) -/
theorem rect_halfopen_containment (m0 : CollisionManager)
    (hcs : 0 < m0.grid_cell_size) (k : ℕ) (rx ry rw rh : ℚ)
    (hk : m0.collision_objects.get? k = some (CollisionObj.rect rx ry rw rh))
    (hx0 : 0 ≤ rx * (m0.tile_width : ℚ)) (hy0 : 0 ≤ ry * (m0.tile_height : ℚ)) :
    (∀ x y : ℚ,
      rx * (m0.tile_width : ℚ) ≤ x → x < (rx + rw) * (m0.tile_width : ℚ) →
      ry * (m0.tile_height : ℚ) ≤ y → y < (ry + rh) * (m0.tile_height : ℚ) →
      is_position_collidable (build_spatial_grid m0) x y = true) ∧
    (∀ x y : ℚ,
      (x < rx * (m0.tile_width : ℚ) ∨ (rx + rw) * (m0.tile_width : ℚ) ≤ x ∨
       y < ry * (m0.tile_height : ℚ) ∨ (ry + rh) * (m0.tile_height : ℚ) ≤ y) →
      objMatch m0.tile_width m0.tile_height x y
        (CollisionObj.rect rx ry rw rh) = false) := by
  constructor
  · intro x y h1 h2 h3 h4
    have hgrid : k ∈ (build_spatial_grid m0).spatial_grid
        (fdivQ x (m0.grid_cell_size : ℚ), fdivQ y (m0.grid_cell_size : ℚ)) := by
      apply spatial_grid_conservative_nonneg m0 hcs k _ hk
        (BBoxPx.mk (rx * (m0.tile_width : ℚ)) (ry * (m0.tile_height : ℚ))
          ((rx + rw) * (m0.tile_width : ℚ)) ((ry + rh) * (m0.tile_height : ℚ)))
        rfl hx0 hy0
      obtain ⟨hxl, hxr⟩ := cell_floor_bounds hcs x
      obtain ⟨hyl, hyr⟩ := cell_floor_bounds hcs y
      refine ⟨?_, ?_, ?_, ?_⟩ <;> push_cast <;> linarith
    have hmatch : objMatch m0.tile_width m0.tile_height x y
        (CollisionObj.rect rx ry rw rh) = true := by
      unfold objMatch
      simp only [Bool.and_eq_true, decide_eq_true_eq]
      rw [add_mul] at h2 h4
      exact ⟨⟨⟨h1, h2⟩, h3⟩, h4⟩
    have hspat : spatialHit (build_spatial_grid m0) x y = true := by
      unfold spatialHit
      apply List.any_eq_true.mpr
      refine ⟨k, hgrid, ?_⟩
      have hobj : (build_spatial_grid m0).collision_objects.get? k =
          some (CollisionObj.rect rx ry rw rh) := hk
      rw [hobj]
      exact hmatch
    unfold is_position_collidable
    rw [hspat, Bool.or_true]
  · intro x y hcase
    cases hval : objMatch m0.tile_width m0.tile_height x y
        (CollisionObj.rect rx ry rw rh) with
    | false => rfl
    | true =>
        exfalso
        unfold objMatch at hval
        simp only [Bool.and_eq_true, decide_eq_true_eq] at hval
        obtain ⟨⟨⟨ha, hb⟩, hc⟩, hd⟩ := hval
        rcases hcase with h | h | h | h <;>
          linarith [add_mul rx rw ((m0.tile_width : ℚ)),
                    add_mul ry rh ((m0.tile_height : ℚ))]

/-- Closed witness for `rect_halfopen_containment`: a manager holding one
rectangle at tile `(1, 0)`, size `1 × 1` (pixel bounds `[32, 64) × [0, 32)`,
tile and cell size 32): the interior point `(40, 8)` is blocked after the
build, and the right-edge point `(64, 8)` gets no match from the rectangle. -/
theorem rect_halfopen_containment_witness :
    is_position_collidable
      (build_spatial_grid
        (CollisionManager.mk 32 32 4 4 (List.replicate 16 false) []
          [CollisionObj.rect 1 0 1 1] (fun _ => []) 32)) 40 8 = true ∧
    objMatch 32 32 64 8 (CollisionObj.rect 1 0 1 1) = false :=
  ⟨(rect_halfopen_containment
      (CollisionManager.mk 32 32 4 4 (List.replicate 16 false) []
        [CollisionObj.rect 1 0 1 1] (fun _ => []) 32)
      (by decide) 0 1 0 1 1 (by with_unfolding_all decide)
      (by with_unfolding_all decide) (by with_unfolding_all decide)).1
    40 8 (by with_unfolding_all decide) (by with_unfolding_all decide)
    (by with_unfolding_all decide) (by with_unfolding_all decide),
   (rect_halfopen_containment
      (CollisionManager.mk 32 32 4 4 (List.replicate 16 false) []
        [CollisionObj.rect 1 0 1 1] (fun _ => []) 32)
      (by decide) 0 1 0 1 1 (by with_unfolding_all decide)
      (by with_unfolding_all decide) (by with_unfolding_all decide)).2
    64 8 (Or.inr (Or.inl (by with_unfolding_all decide)))⟩

/-! ### C3: the dense occupancy grid -/

lemma markFrom_length (cond : ℕ → Bool) (k : ℕ) (l : List Bool) :
    (markFrom cond k l).length = l.length := by
  induction l generalizing k with
  | nil => rfl
  | cons b rest ih =>
      unfold markFrom
      simp [ih]

lemma markFrom_getD (cond : ℕ → Bool) {l : List Bool} {i : ℕ}
    (hi : i < l.length) (k : ℕ) :
    (markFrom cond k l).getD i false = (l.getD i false || cond (k + i)) := by
  induction l generalizing k i with
  | nil => simp at hi
  | cons b rest ih =>
      cases i with
      | zero => rfl
      | succ i' =>
          have hi' : i' < rest.length := by simpa using hi
          unfold markFrom
          simp only [List.getD_cons_succ]
          rw [ih hi' (k + 1)]
          have : k + 1 + i' = k + (i' + 1) := by omega
          rw [this]

lemma markLayer_length (ct : List ℤ) (cmap : List Bool) (L : Layer) :
    (markLayer ct cmap L).length = cmap.length := by
  unfold markLayer
  split
  · exact markFrom_length _ _ _
  · rfl

lemma markLayer_getD (ct : List ℤ) {cmap : List Bool} {i : ℕ}
    (hi : i < cmap.length) (L : Layer) :
    (markLayer ct cmap L).getD i false =
      (cmap.getD i false ||
        ((L.kind == "tilelayer") && L.visible && layerCond ct L i)) := by
  unfold markLayer
  cases hc : (L.kind == "tilelayer") && L.visible with
  | true =>
      rw [if_pos rfl, markFrom_getD _ hi 0]
      simp
  | false =>
      rw [if_neg (by simp)]
      simp

lemma foldl_markLayer_length (ct : List ℤ) (layers : List Layer)
    (cmap : List Bool) :
    (layers.foldl (markLayer ct) cmap).length = cmap.length := by
  induction layers generalizing cmap with
  | nil => rfl
  | cons L rest ih =>
      simp only [List.foldl_cons]
      rw [ih, markLayer_length]

lemma foldl_markLayer_getD (ct : List ℤ) (layers : List Layer)
    {cmap : List Bool} {i : ℕ} (hi : i < cmap.length) :
    (layers.foldl (markLayer ct) cmap).getD i false =
      (cmap.getD i false ||
        layers.any (fun L =>
          (L.kind == "tilelayer") && L.visible && layerCond ct L i)) := by
  induction layers generalizing cmap with
  | nil => simp
  | cons L rest ih =>
      simp only [List.foldl_cons, List.any_cons]
      have hi' : i < (markLayer ct cmap L).length := by
        rw [markLayer_length]
        exact hi
      rw [ih hi', markLayer_getD ct hi L, Bool.or_assoc]

/-- `layerCond` unpacked into the spec's wording. -/
lemma layerCond_iff (ct : List ℤ) (L : Layer) (i : ℕ) :
    layerCond ct L i = true ↔
      ∃ gid, L.data.get? i = some gid ∧ gid ≠ 0 ∧ gid ∈ ct := by
  unfold layerCond
  cases hg : L.data.get? i with
  | none => simp
  | some gid =>
      simp only [Bool.and_eq_true, bne_iff_ne, ne_eq, decide_eq_true_eq]
      constructor
      · rintro ⟨h0, hmem⟩
        exact ⟨gid, rfl, by simpa using h0, hmem⟩
      · rintro ⟨g', hg', h0, hmem⟩
        cases hg'
        exact ⟨by simpa using h0, hmem⟩

/-- **C3, counterexample.** Collision shapes never mark the dense occupancy
grid: a map with no tile layers and a single collision rectangle covering
exactly tile cell `(0, 0)` (pixels `[0,16) × [0,16)`) leaves the occupancy
grid all-false at that cell — even though the shape's bounding region covers
the cell and the point query reports the cell's points blocked (via the
spatial hash). This refutes the "OR any collision shape's bounding region
covers it" half of the claimed invariant. -/
theorem occupancy_ignores_shapes :
    (runBuild (CollisionManager.init 16 16 2 2)
        [Layer.mk "objectgroup" "collision" true []
          [MapObject.mk 0 0 16 16 false none]] []).collision_objects =
      [CollisionObj.rect 0 0 1 1] ∧
    objBBoxPx 16 16 (CollisionObj.rect 0 0 1 1) =
      some (BBoxPx.mk 0 0 16 16) ∧
    is_position_collidable
      (runBuild (CollisionManager.init 16 16 2 2)
        [Layer.mk "objectgroup" "collision" true []
          [MapObject.mk 0 0 16 16 false none]] []) 8 8 = true ∧
    (runBuild (CollisionManager.init 16 16 2 2)
        [Layer.mk "objectgroup" "collision" true []
          [MapObject.mk 0 0 16 16 false none]] []).collision_map.getD 0 false =
      false := by
  refine ⟨?_, ?_, ?_, ?_⟩ <;> with_unfolding_all decide

/-- **C3 (amended).** After a fresh build, a grid cell is occupied in the
dense occupancy grid **iff** some visible tile layer stores a non-zero,
collidable tile identifier at that cell's flat index. Collision shapes do
not contribute to the dense grid; they are only consulted through the
spatial hash. -/
theorem occupancy_iff_visible_collidable_tile (tw th : ℤ) (w h : ℕ)
    (layers : List Layer) (tilesets : List (ℤ × Tileset)) (i : ℕ)
    (hi : i < w * h) :
    ((runBuild (CollisionManager.init tw th w h) layers tilesets).collision_map.getD
        i false = true) ↔
      ∃ L ∈ layers, L.kind = "tilelayer" ∧ L.visible = true ∧
        ∃ gid, L.data.get? i = some gid ∧ gid ≠ 0 ∧
          is_tile_collidable (identify_collidable_tiles tilesets) gid = true := by
  have hmap : (runBuild (CollisionManager.init tw th w h) layers
      tilesets).collision_map =
      layers.foldl (markLayer (identify_collidable_tiles tilesets))
        (List.replicate (w * h) false) := rfl
  rw [hmap]
  have hlen : i < (List.replicate (w * h) false).length := by
    simpa using hi
  rw [foldl_markLayer_getD _ _ hlen]
  have hrep : (List.replicate (w * h) false).getD i false = false := by simp
  rw [hrep, Bool.false_or, List.any_eq_true]
  constructor
  · rintro ⟨L, hL, hcond⟩
    simp only [Bool.and_eq_true, beq_iff_eq] at hcond
    obtain ⟨⟨hk, hv⟩, hc⟩ := hcond
    obtain ⟨gid, hg, h0, hmem⟩ := (layerCond_iff _ _ _).mp hc
    exact ⟨L, hL, hk, hv, gid, hg, h0, by simpa [is_tile_collidable] using hmem⟩
  · rintro ⟨L, hL, hk, hv, gid, hg, h0, hcol⟩
    refine ⟨L, hL, ?_⟩
    simp only [Bool.and_eq_true, beq_iff_eq]
    refine ⟨⟨hk, hv⟩, (layerCond_iff _ _ _).mpr ⟨gid, hg, h0, ?_⟩⟩
    simpa [is_tile_collidable] using hcol

/-- Closed witness for `occupancy_iff_visible_collidable_tile`: a 2×2 map
with one visible tile layer storing gid 5 at cell 0 and a tileset (firstgid
1, 8 tiles) that is collidable at tileset level; the built occupancy grid
marks cell 0. -/
theorem occupancy_iff_visible_collidable_tile_witness :
    ((runBuild (CollisionManager.init 16 16 2 2)
        [Layer.mk "tilelayer" "Ground" true [5, 0, 0, 0] []]
        [(1, Tileset.mk "Terrain" [PropKV.mk "collidable" "true"] 8 [])]).collision_map.getD
        0 false = true) :=
  (occupancy_iff_visible_collidable_tile 16 16 2 2
      [Layer.mk "tilelayer" "Ground" true [5, 0, 0, 0] []]
      [(1, Tileset.mk "Terrain" [PropKV.mk "collidable" "true"] 8 [])] 0
      (by decide)).mpr
    ⟨Layer.mk "tilelayer" "Ground" true [5, 0, 0, 0] [],
     List.mem_singleton.mpr rfl, rfl, rfl, 5, rfl, by decide, by decide⟩

/-! ### C8: building twice is not idempotent -/

lemma foldl_append_shape {α β : Type} (f : List α → β → List α)
    (d : β → List α) (hf : ∀ a e, f a e = a ++ d e) (xs : List β)
    (a : List α) : xs.foldl f a = a ++ xs.foldl f [] := by
  induction xs generalizing a with
  | nil => simp
  | cons e rest ih =>
      simp only [List.foldl_cons]
      rw [ih (f a e), ih (f [] e), hf a e, hf [] e]
      simp [List.append_assoc]

lemma objStep_shape (tw th : ℤ) (a : List CollisionObj) (o : MapObject) :
    objStep tw th a o = a ++ (objToCollision tw th o).toList := by
  unfold objStep
  cases objToCollision tw th o <;> simp

lemma layerStep_shape (tw th : ℤ) (a : List CollisionObj) (L : Layer) :
    layerStep tw th a L =
      a ++ (if L.kind == "objectgroup" && hasCollisionName L.name then
              L.objects.foldl (objStep tw th) []
            else []) := by
  unfold layerStep
  split
  · exact foldl_append_shape _ _ (objStep_shape tw th) L.objects a
  · simp

/-- A second run of `load_collision_objects` appends a fresh copy of every
extracted shape after the existing ones. -/
lemma load_collision_objects_append (tw th : ℤ) (layers : List Layer)
    (acc : List CollisionObj) :
    load_collision_objects tw th layers acc =
      acc ++ load_collision_objects tw th layers [] := by
  unfold load_collision_objects
  exact foldl_append_shape _ _ (layerStep_shape tw th) layers acc

/-! Membership in the collidable keyset is stable under re-running
`identify_collidable_tiles` on the same tilesets. -/

lemma foldl_mem_cases {α : Type} (f : List ℤ → α → List ℤ) (g : ℤ)
    (mono : ∀ a e, g ∈ a → g ∈ f a e)
    (hcases : ∀ a e, g ∈ f a e → g ∈ a ∨ ∀ a', g ∈ f a' e) :
    ∀ (xs : List α) (a : List ℤ), g ∈ xs.foldl f a →
      g ∈ a ∨ ∀ a', g ∈ xs.foldl f a' := by
  intro xs
  induction xs with
  | nil => exact fun a h => Or.inl h
  | cons e rest ih =>
      intro a h
      simp only [List.foldl_cons] at h ⊢
      rcases ih (f a e) h with h' | h'
      · rcases hcases a e h' with h'' | h''
        · exact Or.inl h''
        · exact Or.inr fun a' =>
            mem_foldl_of_mem_mono f g mono rest (h'' a')
      · exact Or.inr fun a' => h' (f a' e)

lemma mem_dictAdd_cases {l : List ℤ} {g g' : ℤ} (h : g ∈ dictAdd l g') :
    g ∈ l ∨ g = g' := by
  unfold dictAdd at h
  split at h
  · exact Or.inl h
  · rcases List.mem_append.mp h with h' | h'
    · exact Or.inl h'
    · exact Or.inr (List.mem_singleton.mp h')

lemma mem_foldl_dictAdd_cases {g : ℤ} {xs : List ℤ} :
    ∀ {l : List ℤ}, g ∈ xs.foldl dictAdd l → g ∈ l ∨ g ∈ xs := by
  induction xs with
  | nil => exact fun h => Or.inl h
  | cons x rest ih =>
      intro l h
      simp only [List.foldl_cons] at h
      rcases ih h with h' | h'
      · rcases mem_dictAdd_cases h' with h'' | h''
        · exact Or.inl h''
        · exact Or.inr (by simp [h''])
      · exact Or.inr (List.mem_cons_of_mem _ h')

lemma mem_dictAddRange_cases {l : List ℤ} {g f : ℤ} {n : ℕ}
    (h : g ∈ dictAddRange l f n) : g ∈ l ∨ ∀ l', g ∈ dictAddRange l' f n := by
  unfold dictAddRange at h
  rcases mem_foldl_dictAdd_cases h with h' | h'
  · exact Or.inl h'
  · exact Or.inr fun l' => mem_foldl_dictAdd_self h' l'

lemma mem_processTileProp_cases {acc : List ℤ} {g firstgid : ℤ}
    {ts : Tileset} {tid : ℕ} {p : PropKV}
    (h : g ∈ processTileProp firstgid ts tid acc p) :
    g ∈ acc ∨ ∀ acc', g ∈ processTileProp firstgid ts tid acc' p := by
  unfold processTileProp at h ⊢
  split at h
  next hcond =>
      split at h
      next hw =>
          rcases mem_dictAddRange_cases h with h' | h'
          · rcases mem_dictAdd_cases h' with h'' | h''
            · exact Or.inl h''
            · refine Or.inr fun acc' => ?_
              rw [if_pos hcond, if_pos hw]
              subst h''
              exact mem_dictAddRange_of_mem (mem_dictAdd_self _ _) _ _
          · refine Or.inr fun acc' => ?_
            rw [if_pos hcond, if_pos hw]
            exact h' _
      next hw =>
          rcases mem_dictAdd_cases h with h' | h'
          · exact Or.inl h'
          · refine Or.inr fun acc' => ?_
            rw [if_pos hcond, if_neg hw]
            subst h'
            exact mem_dictAdd_self _ _
  next => exact Or.inl h

lemma mem_processTile_cases {acc : List ℤ} {g firstgid : ℤ} {ts : Tileset}
    {ti : TileInfo} (h : g ∈ processTile firstgid ts acc ti) :
    g ∈ acc ∨ ∀ acc', g ∈ processTile firstgid ts acc' ti := by
  unfold processTile at h ⊢
  exact foldl_mem_cases _ g
    (fun a e h' => mem_processTileProp_of_mem h' _ _ _ e)
    (fun a e h' => mem_processTileProp_cases h') ti.properties acc h

lemma mem_processTileset_cases {acc : List ℤ} {g : ℤ} {e : ℤ × Tileset}
    (h : g ∈ processTileset acc e) :
    g ∈ acc ∨ ∀ acc', g ∈ processTileset acc' e := by
  unfold processTileset at h ⊢
  have hfold := foldl_mem_cases (processTile e.1 e.2) g
    (fun a t h' => mem_processTile_of_mem h' _ _ t)
    (fun a t h' => mem_processTile_cases h') e.2.tiles _ h
  rcases hfold with h' | h'
  · split at h'
    next hlvl =>
        rcases mem_dictAddRange_cases h' with h'' | h''
        · exact Or.inl h''
        · refine Or.inr fun acc' => ?_
          apply mem_foldl_processTile_of_mem
          rw [if_pos hlvl]
          exact h'' _
    next => exact Or.inl h'
  · exact Or.inr fun acc' => h' _

lemma mem_foldl_processTileset_iff (ts : List (ℤ × Tileset)) (a : List ℤ)
    (g : ℤ) :
    g ∈ ts.foldl processTileset (ts.foldl processTileset a) ↔
      g ∈ ts.foldl processTileset a := by
  constructor
  · intro h
    rcases foldl_mem_cases processTileset g
        (fun a' e h' => mem_processTileset_of_mem h' e)
        (fun a' e h' => mem_processTileset_cases h') ts _ h with h' | h'
    · exact h'
    · exact h' a
  · intro h
    exact mem_foldl_of_mem_mono processTileset g
      (fun a' e h' => mem_processTileset_of_mem h' e) ts h

/-! The occupancy marking only depends on the membership of the collidable
keyset, and marking twice equals marking once. -/

lemma layerCond_congr {ct₁ ct₂ : List ℤ}
    (hmem : ∀ g : ℤ, g ∈ ct₂ ↔ g ∈ ct₁) (L : Layer) (i : ℕ) :
    layerCond ct₂ L i = layerCond ct₁ L i := by
  unfold layerCond
  cases L.data.get? i with
  | none => rfl
  | some gid =>
      have hdec : decide (gid ∈ ct₂) = decide (gid ∈ ct₁) :=
        decide_eq_decide.mpr (hmem gid)
      simp only [hdec]

lemma markFrom_congr {cond₁ cond₂ : ℕ → Bool}
    (h : ∀ i, cond₁ i = cond₂ i) : ∀ (k : ℕ) (l : List Bool),
    markFrom cond₁ k l = markFrom cond₂ k l := by
  intro k l
  induction l generalizing k with
  | nil => rfl
  | cons b rest ih =>
      unfold markFrom
      rw [h k, ih (k + 1)]

lemma foldl_markLayer_congr {ct₁ ct₂ : List ℤ}
    (hmem : ∀ g : ℤ, g ∈ ct₂ ↔ g ∈ ct₁) (layers : List Layer)
    (cmap : List Bool) :
    layers.foldl (markLayer ct₂) cmap = layers.foldl (markLayer ct₁) cmap := by
  induction layers generalizing cmap with
  | nil => rfl
  | cons L rest ih =>
      simp only [List.foldl_cons]
      have hL : markLayer ct₂ cmap L = markLayer ct₁ cmap L := by
        unfold markLayer
        split
        · exact markFrom_congr (fun i => layerCond_congr hmem L i) 0 cmap
        · rfl
      rw [hL, ih]

lemma foldl_markLayer_idem (ct : List ℤ) (layers : List Layer)
    (cmap : List Bool) :
    layers.foldl (markLayer ct) (layers.foldl (markLayer ct) cmap) =
      layers.foldl (markLayer ct) cmap := by
  apply List.ext_getElem
  · rw [foldl_markLayer_length, foldl_markLayer_length]
  · intro i h1 h2
    have hi : i < cmap.length := by
      rw [foldl_markLayer_length] at h2
      exact h2
    have hi' : i < (layers.foldl (markLayer ct) cmap).length := by
      rw [foldl_markLayer_length]
      exact hi
    rw [← List.getD_eq_getElem _ false h1, ← List.getD_eq_getElem _ false h2]
    rw [foldl_markLayer_getD ct layers hi', foldl_markLayer_getD ct layers hi]
    rw [Bool.or_assoc, Bool.or_self]

/-- **C8, counterexample.** Running the full build twice on an unchanged map
does not reproduce the shape list: `load_collision_objects` appends to
`collision_objects` without clearing it, so the single collision rectangle
appears twice after the second build. -/
theorem build_twice_duplicates_shapes :
    (runBuild
        (runBuild (CollisionManager.init 16 16 2 2)
          [Layer.mk "objectgroup" "collision" true []
            [MapObject.mk 0 0 16 16 false none]] [])
        [Layer.mk "objectgroup" "collision" true []
          [MapObject.mk 0 0 16 16 false none]] []).collision_objects ≠
      (runBuild (CollisionManager.init 16 16 2 2)
        [Layer.mk "objectgroup" "collision" true []
          [MapObject.mk 0 0 16 16 false none]] []).collision_objects := by
  with_unfolding_all decide

/-- **C8 (amended).** Running the full collision build twice on an unchanged
map reproduces the dense occupancy grid exactly (same boolean per cell), but
not the shape list: the second build appends a fresh copy of every extracted
shape to the list produced by the first build (and the spatial grid then
indexes the duplicates). -/
theorem build_twice_occupancy_same_shapes_doubled (m0 : CollisionManager)
    (layers : List Layer) (tilesets : List (ℤ × Tileset)) :
    (runBuild (runBuild m0 layers tilesets) layers tilesets).collision_map =
      (runBuild m0 layers tilesets).collision_map ∧
    (runBuild (runBuild m0 layers tilesets) layers tilesets).collision_objects =
      (runBuild m0 layers tilesets).collision_objects ++
        load_collision_objects m0.tile_width m0.tile_height layers [] := by
  constructor
  · show layers.foldl
        (markLayer (tilesets.foldl processTileset
          (tilesets.foldl processTileset m0.collidable_tiles)))
        (layers.foldl (markLayer (tilesets.foldl processTileset
          m0.collidable_tiles)) m0.collision_map) =
      layers.foldl (markLayer (tilesets.foldl processTileset
        m0.collidable_tiles)) m0.collision_map
    rw [foldl_markLayer_congr
        (fun g => mem_foldl_processTileset_iff tilesets m0.collidable_tiles g)]
    exact foldl_markLayer_idem _ layers _
  · show load_collision_objects m0.tile_width m0.tile_height layers
        (load_collision_objects m0.tile_width m0.tile_height layers
          m0.collision_objects) =
      load_collision_objects m0.tile_width m0.tile_height layers
        m0.collision_objects ++
        load_collision_objects m0.tile_width m0.tile_height layers []
    exact load_collision_objects_append _ _ layers _

/-! ### The player movement solver (`src/entities/player.py`) -/

/-- The four direction flags of `Player.update` (`moving_left` etc., each
already the `or` of the primary and alternate key). -/
structure Keys where
  left : Bool
  right : Bool
  up : Bool
  down : Bool
deriving DecidableEq, Repr

/-- The player state mutated by `Player.update`. `anim_timer` stands for the
dt-driven presentation state (`AnimatedTile.animation_timer += dt`; the
footprint lifetimes are scaled by dt the same way and never feed back into
the pose). `map_width`/`map_height` are the pixel boundaries passed to
`set_map_boundaries` (0 when unset). -/
structure PlayerState where
  x : ℤ
  y : ℤ
  float_x : ℚ
  float_y : ℚ
  width : ℤ
  height : ℤ
  speed : ℚ
  map_width : ℤ
  map_height : ℤ
  direction : String
  moving : Bool
  anim_timer : ℚ
deriving DecidableEq, Repr

/-- `Player._update_collision_points`: the four corners and four edge
midpoints of the collision box inset 4 pixels from the sprite bounds
(`collision_margin_x = collision_margin_y = 4`). -/
def collision_points (x y w h : ℤ) : List (ℤ × ℤ) :=
  let col_x := x + 4
  let col_y := y + 4
  let cw := w - 8
  let ch := h - 8
  [(col_x, col_y), (col_x + cw - 1, col_y), (col_x, col_y + ch - 1),
   (col_x + cw - 1, col_y + ch - 1),
   (col_x + cw.fdiv 2, col_y), (col_x + cw - 1, col_y + ch.fdiv 2),
   (col_x + cw.fdiv 2, col_y + ch - 1), (col_x, col_y + ch.fdiv 2)]

/-- Python `range(a, b)` over integers. -/
def intRange (a b : ℤ) : List ℤ :=
  (List.range (b - a).toNat).map (fun i : ℕ => a + (i : ℤ))

/-- Minimum of the first coordinates of a point list (Python
`min(p[0] for p in pts)`; the list is never empty where used). -/
def minFst : List (ℤ × ℤ) → ℤ
  | [] => 0
  | p :: rest => rest.foldl (fun a q => min a q.1) p.1

/-- Maximum of the first coordinates. -/
def maxFst : List (ℤ × ℤ) → ℤ
  | [] => 0
  | p :: rest => rest.foldl (fun a q => max a q.1) p.1

/-- Minimum of the second coordinates. -/
def minSnd : List (ℤ × ℤ) → ℤ
  | [] => 0
  | p :: rest => rest.foldl (fun a q => min a q.2) p.2

/-- Maximum of the second coordinates. -/
def maxSnd : List (ℤ × ℤ) → ℤ
  | [] => 0
  | p :: rest => rest.foldl (fun a q => max a q.2) p.2

/-- `Player.check_collision` at integer sprite position `(x, y)` with sprite
size `(pw, ph)`: a broad phase over the tiles spanned by the point
constellation (marked dense cells tested point-by-point, half-open tile
bounds), then `is_position_collidable` for every point. -/
def check_collision (m : CollisionManager) (pw ph : ℤ) (x y : ℤ) : Bool :=
  let pts := collision_points x y pw ph
  let mnx := minFst pts
  let mny := minSnd pts
  let mxx := maxFst pts
  let mxy := maxSnd pts
  ((intRange (mny.fdiv m.tile_height) (mxy.fdiv m.tile_height + 1)).any
    (fun ty =>
      (intRange (mnx.fdiv m.tile_width) (mxx.fdiv m.tile_width + 1)).any
        (fun tx =>
          decide (0 ≤ tx) && decide (tx < (m.map_width : ℤ)) &&
          decide (0 ≤ ty) && decide (ty < (m.map_height : ℤ)) &&
          (decide (ty * (m.map_width : ℤ) + tx < (m.collision_map.length : ℤ)) &&
           m.collision_map.getD (ty * (m.map_width : ℤ) + tx).toNat false &&
           pts.any (fun p =>
             decide (tx * m.tile_width ≤ p.1) &&
             decide (p.1 < (tx + 1) * m.tile_width) &&
             decide (ty * m.tile_height ≤ p.2) &&
             decide (p.2 < (ty + 1) * m.tile_height)))))) ||
  pts.any (fun p => is_position_collidable m (p.1 : ℚ) (p.2 : ℚ))

/-- The per-iteration state of the sub-step loop: the float pose
(`float_x`, `float_y`) and the int pose (`x`, `y`, always `int(float)` after
a move but carried separately, exactly as the source mutates them). -/
structure SubPos where
  fx : ℚ
  fy : ℚ
  ix : ℤ
  iy : ℤ
deriving DecidableEq, Repr

/-- The sub-step loop of `Player.update` (`player.py` lines 151-180), with
`fuel` counting the remaining iterations (`steps + 1 - k`). Each iteration
computes `step_x/step_y = old + total * k / steps` (note `old` is the
*updated* old position), tries the X move alone — reverting and breaking on
collision before the Y move is attempted — then the Y move alone, reverting
and breaking on collision. -/
def substepLoop (m : CollisionManager) (pw ph : ℤ) (tdx tdy : ℚ)
    (steps : ℕ) : ℕ → ℕ → SubPos → SubPos
  | 0, _, st => st
  | fuel + 1, k, st =>
      let step_x := st.fx + tdx * (k : ℚ) / (steps : ℚ)
      let step_y := st.fy + tdy * (k : ℚ) / (steps : ℚ)
      if check_collision m pw ph (ratTrunc step_x) st.iy then
        SubPos.mk st.fx st.fy (ratTrunc st.fx) st.iy
      else if check_collision m pw ph (ratTrunc step_x) (ratTrunc step_y) then
        SubPos.mk step_x st.fy (ratTrunc step_x) (ratTrunc st.fy)
      else
        substepLoop m pw ph tdx tdy steps fuel (k + 1)
          (SubPos.mk step_x step_y (ratTrunc step_x) (ratTrunc step_y))

/-- The movement vector of `Player.update` (`player.py` lines 110-124): each
axis in `{-1, 0, 1}`, both scaled by the literal `0.7071` on diagonals. -/
def playerDxDy (keys : Keys) : ℚ × ℚ :=
  let dx : ℚ := (if keys.left then -1 else 0) + (if keys.right then 1 else 0)
  let dy : ℚ := (if keys.up then -1 else 0) + (if keys.down then 1 else 0)
  if dx ≠ 0 ∧ dy ≠ 0 then (dx * (7071 / 10000), dy * (7071 / 10000))
  else (dx, dy)

/-- `Player.update`: movement vector, per-tick displacement `d * speed`
(dt does not scale it), boundary clamp, sub-stepped collision resolution
when a tilemap is present, then direction/moving bookkeeping; dt only feeds
the animation/footprint timers. -/
def playerUpdate (p : PlayerState) (keys : Keys) (dt : ℚ)
    (tm : Option CollisionManager) : PlayerState :=
  let d := playerDxDy keys
  let old_x := p.float_x
  let old_y := p.float_y
  let nfx0 := p.float_x + d.1 * p.speed
  let nfy0 := p.float_y + d.2 * p.speed
  let nfx := if 0 < p.map_width ∧ 0 < p.map_height then
               max 0 (min nfx0 ((p.map_width - p.width : ℤ) : ℚ))
             else nfx0
  let nfy := if 0 < p.map_width ∧ 0 < p.map_height then
               max 0 (min nfy0 ((p.map_height - p.height : ℤ) : ℚ))
             else nfy0
  let pos :=
    match tm with
    | some m =>
        let step_size := min (p.speed / 2) 1
        let tdx := nfx - old_x
        let tdy := nfy - old_y
        let steps := max 1 (ratTrunc (max |tdx| |tdy| / step_size)).toNat
        substepLoop m p.width p.height tdx tdy steps steps 1
          (SubPos.mk old_x old_y p.x p.y)
    | none => SubPos.mk nfx nfy (ratTrunc nfx) (ratTrunc nfy)
  let dir := if d.1 ≠ 0 ∨ d.2 ≠ 0 then
               (if |d.1| > |d.2| then (if d.1 > 0 then "right" else "left")
                else (if d.2 > 0 then "down" else "up"))
             else p.direction
  let moved := p.x ≠ pos.ix ∨ p.y ≠ pos.iy
  PlayerState.mk pos.ix pos.iy pos.fx pos.fy p.width p.height p.speed
    p.map_width p.map_height dir (decide moved) (p.anim_timer + dt)

/-! ### C9: dt noninterference on the resolved pose -/

/-- **C9.** Two runs of the movement update that differ only in `dt`
resolve to the same position (float and int), the same facing direction and
the same moving flag, for every pose, key state and collision index: `dt`
scales only the animation/footprint timers, never the movement displacement.
-/
theorem dt_noninterference_position (p : PlayerState) (keys : Keys)
    (tm : Option CollisionManager) (dt₁ dt₂ : ℚ) :
    (playerUpdate p keys dt₁ tm).float_x = (playerUpdate p keys dt₂ tm).float_x ∧
    (playerUpdate p keys dt₁ tm).float_y = (playerUpdate p keys dt₂ tm).float_y ∧
    (playerUpdate p keys dt₁ tm).x = (playerUpdate p keys dt₂ tm).x ∧
    (playerUpdate p keys dt₁ tm).y = (playerUpdate p keys dt₂ tm).y ∧
    (playerUpdate p keys dt₁ tm).direction = (playerUpdate p keys dt₂ tm).direction ∧
    (playerUpdate p keys dt₁ tm).moving = (playerUpdate p keys dt₂ tm).moving :=
  ⟨rfl, rfl, rfl, rfl, rfl, rfl⟩

/-! ### C1: wall-slide is asymmetric between the axes -/

/-- A 4×4-tile map (16-pixel tiles) with a vertical wall segment one tile to
the right of the origin cell: tiles `(1, 0)` and `(1, 1)` are collidable. -/
def wallRightCM : CollisionManager :=
  CollisionManager.mk 16 16 4 4
    [false, true, false, false,
     false, true, false, false,
     false, false, false, false,
     false, false, false, false] [] [] (fun _ => []) 32

/-- A 4×4-tile map with a horizontal wall segment one tile below the origin
cell: tiles `(0, 1)` and `(1, 1)` are collidable. -/
def wallBelowCM : CollisionManager :=
  CollisionManager.mk 16 16 4 4
    [false, false, false, false,
     true, true, false, false,
     false, false, false, false,
     false, false, false, false] [] [] (fun _ => []) 32

/-- The player used in the wall-slide scenarios: at pixel `(4, 4)`, 16×16
sprite, default speed `600 / 300 = 2`, 64×64-pixel map boundaries. -/
def slideP : PlayerState :=
  PlayerState.mk 4 4 4 4 16 16 2 64 64 "down" false 0

/-- **C1, counterexample.** With the wall directly to the right and a
diagonal right+down input, the resolved position advances on *neither* axis:
the horizontal block reverts X and `break`s out of the loop before the
vertical move of the same sub-step is attempted, so the claimed vertical
advance does not happen. (Third conjunct: from the same pose, a down-only
input does advance vertically, so the vertical path is free — the obstacle
is horizontal-only.) -/
theorem diagonal_into_wall_no_slide :
    (playerUpdate slideP (Keys.mk false true false true) (1 / 60)
        (some wallRightCM)).float_x = 4 ∧
    (playerUpdate slideP (Keys.mk false true false true) (1 / 60)
        (some wallRightCM)).float_y = 4 ∧
    (playerUpdate slideP (Keys.mk false false false true) (1 / 60)
        (some wallRightCM)).float_y = 7 := by
  refine ⟨?_, ?_, ?_⟩ <;> with_unfolding_all decide

/-- **C1 (amended).** Within one sub-step the two axes are *not*
symmetric: (a) when the X move alone collides, the sub-step ends immediately
with X reverted and the Y move never attempted — blocking the horizontal
axis also suppresses that sub-step's vertical movement (and all later
sub-steps); (b) when the X move is free and the Y move collides, the
sub-step keeps the X advance and reverts only Y — wall-sliding works in this
direction. -/
theorem substep_axis_blocking (m : CollisionManager) (pw ph : ℤ)
    (tdx tdy : ℚ) (steps fuel k : ℕ) (st : SubPos) :
    (check_collision m pw ph
        (ratTrunc (st.fx + tdx * (k : ℚ) / (steps : ℚ))) st.iy = true →
      substepLoop m pw ph tdx tdy steps (fuel + 1) k st =
        SubPos.mk st.fx st.fy (ratTrunc st.fx) st.iy) ∧
    (check_collision m pw ph
        (ratTrunc (st.fx + tdx * (k : ℚ) / (steps : ℚ))) st.iy = false →
     check_collision m pw ph
        (ratTrunc (st.fx + tdx * (k : ℚ) / (steps : ℚ)))
        (ratTrunc (st.fy + tdy * (k : ℚ) / (steps : ℚ))) = true →
      substepLoop m pw ph tdx tdy steps (fuel + 1) k st =
        SubPos.mk (st.fx + tdx * (k : ℚ) / (steps : ℚ)) st.fy
          (ratTrunc (st.fx + tdx * (k : ℚ) / (steps : ℚ))) (ratTrunc st.fy)) := by
  constructor
  · intro hX
    unfold substepLoop
    rw [if_pos hX]
  · intro hX hY
    unfold substepLoop
    rw [if_neg (by simp [hX]), if_pos hY]

/-- Closed witness for `substep_axis_blocking`, part (b): against the wall
below, one sub-step of the diagonal move keeps the full horizontal advance
(`4 + 0.7071·2`) while the vertical move is reverted. -/
theorem substep_axis_blocking_witness :
    substepLoop wallBelowCM 16 16 (7071 / 5000) (7071 / 5000) 1 1 1
        (SubPos.mk 4 4 4 4) =
      SubPos.mk (4 + (7071 / 5000 : ℚ) * ((1 : ℕ) : ℚ) / ((1 : ℕ) : ℚ)) 4
        (ratTrunc (4 + (7071 / 5000 : ℚ) * ((1 : ℕ) : ℚ) / ((1 : ℕ) : ℚ)))
        (ratTrunc 4) :=
  (substep_axis_blocking wallBelowCM 16 16 (7071 / 5000) (7071 / 5000) 1 0 1
      (SubPos.mk 4 4 4 4)).2
    (by with_unfolding_all decide) (by with_unfolding_all decide)

/-! ### C7: sub-stepping does not prevent tunneling -/

/-- A 40×1-tile map (16-pixel tiles) whose only collidable tile is column
18 — a one-tile-wide wall occupying pixels `[288, 304)`. -/
def tunnelCM : CollisionManager :=
  CollisionManager.mk 16 16 40 1 ((List.replicate 40 false).set 18 true)
    [] [] (fun _ => []) 32

/-- A player at the origin with speed 24 pixels per tick
(`PLAYER_SPEED = 7200`), map boundaries 640×16 pixels. -/
def tunnelP : PlayerState :=
  PlayerState.mk 0 0 0 0 16 16 24 640 16 "down" false 0

/-- **C7, failing run.** One tick of rightward movement with per-tick
displacement 24 pixels (1.5 tiles) ends at `float_x = 300`, with every
collision point at pixel `x ≥ 304` — strictly past the one-tile wall
`[288, 304)` — and no collision was ever detected. The accumulator slip
`step_x = old_float_x + total_dx * step / steps` (with `old_float_x`
re-assigned every iteration) makes the k-th sub-step cover
`total_dx * k / steps` pixels, so the last sub-steps jump further than a
whole tile and carry the collision box clean over the wall, contradicting
the intent of the code's own comments ("Use smaller step size", "Move in
small increments to prevent clipping"). -/
theorem tunneling_through_thin_wall :
    tunnelCM.collision_map.getD 18 false = true ∧
    (playerUpdate tunnelP (Keys.mk false true false false) (1 / 60)
        (some tunnelCM)).float_x = 300 ∧
    ((collision_points 300 0 16 16).all (fun pt => decide (304 ≤ pt.1))) =
      true := by
  refine ⟨?_, ?_, ?_⟩ <;> with_unfolding_all decide

end Labyrinth
